import Mathlib

/-!
Verification development for the Image-Microservice repository
(src/index.ts). The TypeScript source is shallowly embedded: absolute
POSIX paths are lists of path segments, the filesystem is an association
list from paths to file states, and each express route handler becomes a
pure function from a request and a filesystem to a response, a new
filesystem and a trace of the filesystem operations it performed.
-/

namespace ImageMicroservice

/-! ## Path model

Node's `path` module on POSIX: an absolute path is modelled as the list
of its segments (so `/images/Logos` is `["images", "Logos"]`).
`resolveSegs` is the normalisation performed by `path.join` /
`path.normalize` on an absolute path: empty and `.` segments vanish and
`..` pops the previous segment (popping past the root is dropped, as in
`path.normalize('/../x') = '/x'`). -/

def resolveStep (acc : List String) (s : String) : List String :=
  if s = "" ∨ s = "." then acc
  else if s = ".." then acc.dropLast
  else acc ++ [s]

/-- Normalisation of an absolute path given as a raw segment list:
models `path.join(abs, ...parts)` with an absolute first argument. -/
def resolveSegs (l : List String) : List String := l.foldl resolveStep []

/-- Length of the longest common segment run, used by `path.relative`. -/
def commonPrefixLen : List String → List String → Nat
  | a :: as, b :: bs => if a = b then commonPrefixLen as bs + 1 else 0
  | _, _ => 0

/-- Segment form of `path.relative(fromSegs, toSegs)` for two resolved
absolute paths: climb out of the uncommon part of `fromSegs` with `..`
segments, then descend into the uncommon part of `toSegs`. -/
def relSegsOf (fromSegs toSegs : List String) : List String :=
  let c := commonPrefixLen fromSegs toSegs
  List.replicate (fromSegs.length - c) ".." ++ toSegs.drop c

/-- Join segments with `/` separators, as `path.relative` renders its
result string. -/
def joinSlash : List String → String
  | [] => ""
  | [s] => s
  | s :: rest => s ++ "/" ++ joinSlash rest

/-- Does `s` start with the pattern `p`? Character-list model of
JavaScript `String.prototype.startsWith`. -/
def charsStart : List Char → List Char → Bool
  | [], _ => true
  | _ :: _, [] => false
  | p :: ps, s :: ss => p == s && charsStart ps ss

def strStartsWith (s pat : String) : Bool := charsStart pat.data s.data

/-- The string `path.relative(root, absPath)` for resolved inputs. -/
def pathRelative (fromSegs toSegs : List String) : String :=
  joinSlash (relSegsOf fromSegs toSegs)

/-- Source `isSubFile(root, absPath)` (src/index.ts lines 228-231):
`relPath && !relPath.startsWith('..') && !path.isAbsolute(relPath)`.
A truthy string is a non-empty one, and POSIX `path.isAbsolute` is a
leading-slash test. -/
def isSubFile (root absPath : List String) : Bool :=
  let relPath := pathRelative root absPath
  (!(relPath == "")) && (!(strStartsWith relPath "..")) && (!(strStartsWith relPath "/"))

/-- Index of the last '.' in a character list, if any. -/
def lastDotIdxAux : List Char → Nat → Option Nat → Option Nat
  | [], _, acc => acc
  | c :: rest, i, acc => lastDotIdxAux rest (i + 1) (if c = '.' then some i else acc)

/-- Node `path.parse(basename).name`: the basename with its extension
removed. The extension starts at the last '.', unless that dot is the
first character (hidden files keep their full name) or there is none. -/
def fileStem (s : String) : String :=
  match lastDotIdxAux s.data 0 none with
  | none => s
  | some 0 => s
  | some i => String.mk (s.data.take i)

/-! ## Filesystem model -/

/-- State of one path: missing, present but failing `access(R_OK)`, or
readable with some content (contents are abstracted to a number). -/
inductive FileState where
  | absent
  | unreadable
  | readable (content : Nat)
deriving DecidableEq, Repr

def FileState.isReadable : FileState → Bool
  | .readable _ => true
  | _ => false

abbrev FS := List (List String × FileState)

def FS.lookup : FS → List String → FileState
  | [], _ => .absent
  | (q, st) :: rest, p => if q = p then st else FS.lookup rest p

def FS.insert (fs : FS) (p : List String) (st : FileState) : FS := (p, st) :: fs

def FS.readableAt (fs : FS) (p : List String) : Bool := (fs.lookup p).isReadable

/-- Trace of filesystem operations a handler performed, in order. -/
inductive FsOp where
  | accessCheck (p : List String)
  | existsCheck (p : List String)
  | mkdirRec (p : List String)
  | readFile (p : List String)
  | writeFile (p : List String)
  | unlink (p : List String)
deriving DecidableEq, Repr

/-! ## getOrCreateCacheFile -/

/-- Environment for the effectful parts that are outside the source:
`encode c t` is sharp's re-encode of content `c` to format `t` (`none`
is an encode error), `writeOk` says whether `fs.writeFile` succeeds, and
`failLeftover` is the file state a failed `fs.writeFile` leaves at the
destination (the source writes directly to the final path, so a failed
write can leave a truncated but readable file there). -/
structure Env where
  encode : Nat → String → Option Nat
  writeOk : Bool
  failLeftover : FileState

/-- Result of the `getOrCreateCacheFile` promise: `resolved success
filePath` mirrors the source's `CacheFile` record, `rejected` a rejected
promise (encode or write error). -/
inductive GetRes where
  | resolved (success : Bool) (filePath : List String)
  | rejected
deriving DecidableEq, Repr

/-- The destination cache path (src/index.ts lines 97-99, repeated at
191-193): swap the extension of the basename of `relSegs` for the
requested type and rebase the result under the cache folder. -/
def cacheDestSegs (cacheSegs relSegs : List String) (type : String) : List String :=
  let newFileName := fileStem (relSegs.getLast?.getD "") ++ "." ++ type
  resolveSegs (cacheSegs ++ relSegs.dropLast ++ [newFileName])

/-- Source `getOrCreateCacheFile` (src/index.ts lines 95-151). -/
def getOrCreateCacheFile (env : Env) (fs : FS) (cacheSegs fileSegs relSegs : List String)
    (type : String) : GetRes × FS × List FsOp :=
  let destSegs := cacheDestSegs cacheSegs relSegs type
  -- If a PNG, just serve the original
  if type = "png" then
    (.resolved true fileSegs, fs, [])
  -- Not a PNG: `fs.promises.access(destPath, R_OK)` resolves on a hit
  else if (fs.lookup destSegs).isReadable then
    (.resolved true destSegs, fs, [.accessCheck destSegs])
  else
    -- Check source exists before caching
    match fs.lookup fileSegs with
    | .readable c =>
      let tr := [FsOp.accessCheck destSegs, .accessCheck fileSegs,
                 .mkdirRec destSegs.dropLast, .readFile fileSegs]
      match env.encode c type with
      | none => (.rejected, fs, tr)
      | some b =>
        if env.writeOk then
          (.resolved true destSegs, fs.insert destSegs (.readable b), tr ++ [.writeFile destSegs])
        else
          (.rejected, fs.insert destSegs env.failLeftover, tr ++ [.writeFile destSegs])
    | _ => (.resolved false [], fs, [.accessCheck destSegs, .accessCheck fileSegs])

/-! ## Route handlers -/

inductive Response where
  | sendFile (p : List String)
  | status (code : Nat) (body : String)
deriving DecidableEq, Repr

/-- What a route handler did: sent a response, returned without sending
one, or raised an exception that escaped the handler. -/
inductive HandlerResult where
  | responded (r : Response)
  | noResponse
  | threw (msg : String)
deriving DecidableEq, Repr

def validTypes : List String := ["png", "jpg"]

/-- Source `parseOptionQuery` (src/index.ts lines 240-251). JavaScript
`if (query.type)` is a truthiness test, so an absent or empty `type`
keeps the default; otherwise an unlisted value throws. -/
def parseOptionQuery (qtype : Option String) : Except String String :=
  match qtype with
  | none => .ok "png"
  | some t =>
    if t = "" then .ok "png"
    else if validTypes.contains t then .ok t
    else .error "Invalid image type"

/-- The GET handler registered by `genImageRoute` (src/index.ts lines
158-179). `imagesSegs` is the resolved global images folder, `rootSegs`
the collection's source root and `cacheSegs` the collection's cache
root; `f1`, `f2`, `filename` are the decoded route parameters. When the
containment check fails the handler body simply ends: no response. -/
def handleGet (env : Env) (fs : FS) (imagesSegs cacheSegs rootSegs : List String)
    (f1 f2 filename : String) (qtype : Option String) : HandlerResult × FS × List FsOp :=
  let fileSegs := resolveSegs (rootSegs ++ [f1, f2, filename])
  let relSegs := relSegsOf rootSegs fileSegs
  if isSubFile imagesSegs fileSegs then
    match parseOptionQuery qtype with
    | .error msg => (.threw msg, fs, [])
    | .ok t =>
      match getOrCreateCacheFile env fs cacheSegs fileSegs relSegs t with
      | (.resolved true p, fs', tr) => (.responded (.sendFile p), fs', tr)
      | (.resolved false _, fs', tr) => (.responded (.status 404 "Not Found"), fs', tr)
      | (.rejected, fs', tr) => (.responded (.status 500 "Error processing image"), fs', tr)
  else
    (.noResponse, fs, [])

/-- The DELETE handler registered by `genImageRoute` (src/index.ts lines
181-210). `unlinkOk` injects whether `fs.unlinkSync` succeeds. -/
def handleDelete (fs : FS) (unlinkOk : Bool) (apiKey : String) (cacheSegs rootSegs : List String)
    (auth : Option String) (f1 f2 filename : String) : HandlerResult × FS × List FsOp :=
  let authOk := match auth with
    | none => false
    | some h => h == "Bearer " ++ apiKey
  if !authOk then
    (.responded (.status 401 "Unauthorized"), fs, [])
  else
    let fileSegs := resolveSegs (rootSegs ++ [f1, f2, filename])
    let relSegs := relSegsOf rootSegs fileSegs
    let destSegs := cacheDestSegs cacheSegs relSegs "jpg"
    if isSubFile cacheSegs destSegs then
      if fs.lookup destSegs = .absent then
        (.responded (.status 200 "File deleted successfully"), fs, [.existsCheck destSegs])
      else if unlinkOk then
        (.responded (.status 200 "File deleted successfully"), fs.insert destSegs .absent,
          [.existsCheck destSegs, .unlink destSegs])
      else
        (.responded (.status 500 "Error deleting file"), fs,
          [.existsCheck destSegs, .unlink destSegs])
    else
      (.responded (.status 400 "File in bad directory"), fs, [])

/-! ## Precache walk -/

mutual
/-- Shape of a source directory tree as `fs.promises.readdir` reveals
it: named regular files and named subdirectories. A mutual pair is used
instead of a nested `List Entry` to keep structural recursion simple. -/
inductive Entry where
  | file (name : String)
  | dir (name : String) (entries : EntryList)
inductive EntryList where
  | nil
  | cons (e : Entry) (rest : EntryList)
end

mutual
/-- Source `precacheFolder` (src/index.ts lines 66-88): walk the tree
in order, calling `getOrCreateCacheFile` with `\x7b type: 'jpg' \x7d` on
each regular file; a rejected promise is caught and records the source
path, any resolved result (including `success: false`) records nothing. -/
def precacheEntry (env : Env) (cacheSegs rootSegs folder : List String) (e : Entry)
    (fs : FS) : List (List String) × FS :=
  match e with
  | .file name =>
    let filePath := folder ++ [name]
    let res := getOrCreateCacheFile env fs cacheSegs filePath (relSegsOf rootSegs filePath) "jpg"
    (if res.1 = .rejected then [filePath] else [], res.2.1)
  | .dir name sub => precacheList env cacheSegs rootSegs (folder ++ [name]) sub fs
def precacheList (env : Env) (cacheSegs rootSegs folder : List String) (l : EntryList)
    (fs : FS) : List (List String) × FS :=
  match l with
  | .nil => ([], fs)
  | .cons e rest =>
    let r1 := precacheEntry env cacheSegs rootSegs folder e fs
    let r2 := precacheList env cacheSegs rootSegs folder rest r1.2
    (r1.1 ++ r2.1, r2.2)
end

mutual
/-- Instrumented walk: same traversal and same state threading as
`precacheList`, but recording every file's path with the result of its
`getOrCreateCacheFile` call. -/
def walkEntry (env : Env) (cacheSegs rootSegs folder : List String) (e : Entry)
    (fs : FS) : List (List String × GetRes) × FS :=
  match e with
  | .file name =>
    let filePath := folder ++ [name]
    let res := getOrCreateCacheFile env fs cacheSegs filePath (relSegsOf rootSegs filePath) "jpg"
    ([(filePath, res.1)], res.2.1)
  | .dir name sub => walkList env cacheSegs rootSegs (folder ++ [name]) sub fs
def walkList (env : Env) (cacheSegs rootSegs folder : List String) (l : EntryList)
    (fs : FS) : List (List String × GetRes) × FS :=
  match l with
  | .nil => ([], fs)
  | .cons e rest =>
    let r1 := walkEntry env cacheSegs rootSegs folder e fs
    let r2 := walkList env cacheSegs rootSegs folder rest r1.2
    (r1.1 ++ r2.1, r2.2)
end

mutual
/-- All regular-file paths of a tree, in traversal order. -/
def filesOfEntry (folder : List String) : Entry → List (List String)
  | .file name => [folder ++ [name]]
  | .dir name sub => filesOfList (folder ++ [name]) sub
def filesOfList (folder : List String) : EntryList → List (List String)
  | .nil => []
  | .cons e rest => filesOfEntry folder e ++ filesOfList folder rest
end

/-! ## Concrete fixtures used by witnesses and counterexamples -/

/-- Encoder that succeeds on jpg, with succeeding writes. -/
def envOk : Env := ⟨fun c t => if t = "jpg" then some (c + 100) else none, true, .absent⟩

/-- Encoder that succeeds on jpg, but the write fails, leaving a
truncated (yet readable) file at the destination. -/
def envWriteFail : Env := ⟨fun c t => if t = "jpg" then some (c + 100) else none, false, .readable 999⟩

/-- Encoder that fails on every input (corrupt source file). -/
def envEncodeFail : Env := ⟨fun _ _ => none, true, .absent⟩

/-! ## Helper lemmas -/

theorem FS.lookup_insert (fs : FS) (p q : List String) (st : FileState) :
    (fs.insert p st).lookup q = if p = q then st else fs.lookup q := rfl

theorem strData_append (a b : String) : (a ++ b).data = a.data ++ b.data := rfl

theorem commonPrefixLen_le_left : ∀ a b : List String, commonPrefixLen a b ≤ a.length := by
  intro a
  induction a with
  | nil => intro b; cases b <;> simp [commonPrefixLen]
  | cons x xs ih =>
    intro b
    cases b with
    | nil => simp [commonPrefixLen]
    | cons y ys =>
      by_cases h : x = y
      · simpa [commonPrefixLen, h, Nat.succ_le_succ_iff] using ih ys
      · simp [commonPrefixLen, h]

theorem commonPrefixLen_eq_len : ∀ a b : List String, commonPrefixLen a b = a.length → a <+: b := by
  intro a
  induction a with
  | nil => intro b _; exact ⟨b, rfl⟩
  | cons x xs ih =>
    intro b h
    cases b with
    | nil => simp [commonPrefixLen] at h
    | cons y ys =>
      by_cases hxy : x = y
      · subst hxy
        simp [commonPrefixLen] at h
        obtain ⟨t, ht⟩ := ih ys h
        exact ⟨t, by rw [List.cons_append, ht]⟩
      · simp [commonPrefixLen, hxy] at h

theorem commonPrefixLen_self : ∀ a : List String, commonPrefixLen a a = a.length := by
  intro a
  induction a with
  | nil => simp [commonPrefixLen]
  | cons x xs ih => simp [commonPrefixLen, ih]

theorem strStartsWith_dotdot (l : List String) :
    strStartsWith (joinSlash (".." :: l)) ".." = true := by
  cases l with
  | nil => decide
  | cons x xs =>
    show charsStart (".." : String).data ((".." ++ "/" ++ joinSlash (x :: xs)).data) = true
    rw [strData_append, strData_append]
    simp [charsStart]

/-- A true `isSubFile root p` means `root` is a strict segment-wise
ancestor of `p`. -/
theorem isSubFile_sub (r p : List String) (h : isSubFile r p = true) : r <+: p ∧ r ≠ p := by
  unfold isSubFile pathRelative relSegsOf at h
  simp only [Bool.and_eq_true, Bool.not_eq_true'] at h
  obtain ⟨⟨h1, h2⟩, h3⟩ := h
  rcases hn : r.length - commonPrefixLen r p with _ | m
  · have hcc : commonPrefixLen r p = r.length :=
      le_antisymm (commonPrefixLen_le_left r p) (Nat.le_of_sub_eq_zero hn)
    refine ⟨commonPrefixLen_eq_len r p hcc, ?_⟩
    intro hrp
    subst hrp
    rw [commonPrefixLen_self r] at h1
    simp [List.replicate, joinSlash] at h1
  · exfalso
    rw [hn] at h2
    rw [List.replicate_succ, List.cons_append, strStartsWith_dotdot] at h2
    exact Bool.true_eq_false.mp h2

/-- Two ancestors of the same path are comparable. -/
theorem sub_comparable : ∀ (c a b : List String), a <+: c → b <+: c → a <+: b ∨ b <+: a := by
  intro c
  induction c with
  | nil =>
    intro a b ha hb
    obtain ⟨t, ht⟩ := ha
    have : a = [] := (List.append_eq_nil.mp ht).1
    exact Or.inl ⟨b, by simp [this]⟩
  | cons x xs ih =>
    intro a b ha hb
    cases a with
    | nil => exact Or.inl ⟨b, by simp⟩
    | cons a1 as =>
      cases b with
      | nil => exact Or.inr ⟨a1 :: as, by simp⟩
      | cons b1 bs =>
        obtain ⟨t, ht⟩ := ha
        obtain ⟨u, hu⟩ := hb
        rw [List.cons_append] at ht hu
        injection ht with ht1 ht2
        injection hu with hu1 hu2
        subst ht1
        subst hu1
        rcases ih as bs ⟨t, ht2⟩ ⟨u, hu2⟩ with h | h
        · obtain ⟨v, hv⟩ := h
          exact Or.inl ⟨v, by rw [List.cons_append, hv]⟩
        · obtain ⟨v, hv⟩ := h
          exact Or.inr ⟨v, by rw [List.cons_append, hv]⟩

/-- `getOrCreateCacheFile` never makes a readable file unreadable: it
only ever writes the destination cache path, and only when that path
was not readable to begin with. -/
theorem getOrCreate_preserves (env : Env) (fs : FS) (cs f r : List String) (t : String)
    (p : List String) (h : fs.readableAt p = true) :
    ((getOrCreateCacheFile env fs cs f r t).2.1).readableAt p = true := by
  unfold getOrCreateCacheFile
  simp only []
  split
  · exact h
  · split
    · exact h
    next hmiss =>
      split
      next c hc =>
        split
        · exact h
        next b hb =>
          split
          · simp only [FS.readableAt, FS.lookup_insert]
            by_cases hdp : cacheDestSegs cs r t = p
            · simp [hdp, FileState.isReadable]
            · simpa [hdp] using h
          · simp only [FS.readableAt, FS.lookup_insert]
            by_cases hdp : cacheDestSegs cs r t = p
            · exfalso
              simp only [FS.readableAt] at h
              rw [← hdp] at h
              exact hmiss h
            · simpa [hdp] using h
      next hnr => exact h

/-- A successful non-pass-through call resolves to the destination
cache path, and that path is readable in the resulting state. -/
theorem getOrCreate_ok_dest (env : Env) (fs : FS) (cs f r : List String) (t : String)
    (hp : t ≠ "png") (q : List String) (fs' : FS) (tr : List FsOp)
    (h : getOrCreateCacheFile env fs cs f r t = (.resolved true q, fs', tr)) :
    q = cacheDestSegs cs r t ∧ fs'.readableAt q = true := by
  unfold getOrCreateCacheFile at h
  simp only [] at h
  split at h
  · exact absurd (by assumption) hp
  next hpng =>
    split at h
    next hhit =>
      simp only [Prod.mk.injEq, GetRes.resolved.injEq] at h
      obtain ⟨⟨-, hdq⟩, hfs, -⟩ := h
      refine ⟨hdq.symm, ?_⟩
      rw [← hfs, FS.readableAt, ← hdq]
      exact hhit
    next hmiss =>
      split at h
      next c hc =>
        split at h
        · exact absurd h (by simp)
        next b hb =>
          split at h
          next hw =>
            simp only [Prod.mk.injEq, GetRes.resolved.injEq] at h
            obtain ⟨⟨-, hdq⟩, hfs, -⟩ := h
            refine ⟨hdq.symm, ?_⟩
            rw [← hfs, FS.readableAt, ← hdq]
            simp [FS.lookup_insert, FileState.isReadable]
          · exact absurd h (by simp)
      next hnr =>
        simp only [Prod.mk.injEq, GetRes.resolved.injEq] at h
        simp at h

mutual
/-- Invariants of the precache walk over a single entry: the failure
list records exactly the rejected calls, the instrumented walk agrees
with the source walk on the final state, every regular file is visited,
readability is preserved, and every successful call leaves its resolved
path readable in the final state. -/
theorem walkEntry_spec (e : Entry) (env : Env) (cs rs folder : List String) (fs : FS) :
    (precacheEntry env cs rs folder e fs).1
        = ((walkEntry env cs rs folder e fs).1.filter (fun pr => pr.2 == GetRes.rejected)).map Prod.fst
      ∧ (precacheEntry env cs rs folder e fs).2 = (walkEntry env cs rs folder e fs).2
      ∧ (walkEntry env cs rs folder e fs).1.map Prod.fst = filesOfEntry folder e
      ∧ (∀ p, fs.readableAt p = true → ((walkEntry env cs rs folder e fs).2).readableAt p = true)
      ∧ (∀ pr ∈ (walkEntry env cs rs folder e fs).1, ∀ q, pr.2 = GetRes.resolved true q →
            ((walkEntry env cs rs folder e fs).2).readableAt q = true) := by
  cases e with
  | file name =>
    refine ⟨?_, ?_, ?_, ?_, ?_⟩
    · simp only [precacheEntry, walkEntry]
      by_cases h :
        (getOrCreateCacheFile env fs cs (folder ++ [name]) (relSegsOf rs (folder ++ [name])) "jpg").1
          = GetRes.rejected
      · simp [h]
      · simp [h]
    · simp [precacheEntry, walkEntry]
    · simp [walkEntry, filesOfEntry]
    · intro p hp
      simp only [walkEntry]
      exact getOrCreate_preserves env fs cs (folder ++ [name]) (relSegsOf rs (folder ++ [name]))
        "jpg" p hp
    · intro pr hpr q hq
      simp only [walkEntry] at hpr ⊢
      rw [List.mem_singleton] at hpr
      subst hpr
      simp only [] at hq
      have htup :
          getOrCreateCacheFile env fs cs (folder ++ [name]) (relSegsOf rs (folder ++ [name])) "jpg"
            = (GetRes.resolved true q,
               (getOrCreateCacheFile env fs cs (folder ++ [name])
                  (relSegsOf rs (folder ++ [name])) "jpg").2.1,
               (getOrCreateCacheFile env fs cs (folder ++ [name])
                  (relSegsOf rs (folder ++ [name])) "jpg").2.2) := by
        rw [← hq]
      exact (getOrCreate_ok_dest env fs cs (folder ++ [name]) (relSegsOf rs (folder ++ [name]))
        "jpg" (by decide) q _ _ htup).2
  | dir name sub =>
    simpa only [precacheEntry, walkEntry, filesOfEntry] using
      walkList_spec sub env cs rs (folder ++ [name]) fs

/-- List version of `walkEntry_spec`. -/
theorem walkList_spec (l : EntryList) (env : Env) (cs rs folder : List String) (fs : FS) :
    (precacheList env cs rs folder l fs).1
        = ((walkList env cs rs folder l fs).1.filter (fun pr => pr.2 == GetRes.rejected)).map Prod.fst
      ∧ (precacheList env cs rs folder l fs).2 = (walkList env cs rs folder l fs).2
      ∧ (walkList env cs rs folder l fs).1.map Prod.fst = filesOfList folder l
      ∧ (∀ p, fs.readableAt p = true → ((walkList env cs rs folder l fs).2).readableAt p = true)
      ∧ (∀ pr ∈ (walkList env cs rs folder l fs).1, ∀ q, pr.2 = GetRes.resolved true q →
            ((walkList env cs rs folder l fs).2).readableAt q = true) := by
  cases l with
  | nil =>
    refine ⟨?_, ?_, ?_, ?_, ?_⟩
    · simp [precacheList, walkList]
    · simp [precacheList, walkList]
    · simp [walkList, filesOfList]
    · intro p hp
      simpa [walkList] using hp
    · intro pr hpr
      simp [walkList] at hpr
  | cons e rest =>
    obtain ⟨e1, e2, e3, e4, e5⟩ := walkEntry_spec e env cs rs folder fs
    obtain ⟨r1, r2, r3, r4, r5⟩ :=
      walkList_spec rest env cs rs folder ((walkEntry env cs rs folder e fs).2)
    simp only [precacheList, walkList]
    rw [e2]
    refine ⟨?_, r2, ?_, ?_, ?_⟩
    · rw [List.filter_append, List.map_append, e1, r1]
    · rw [List.map_append, e3, r3, filesOfList]
    · intro p hp
      exact r4 p (e4 p hp)
    · intro pr hpr q hq
      rcases List.mem_append.mp hpr with hL | hR
      · exact r4 q (e5 pr hL q hq)
      · exact r5 pr hR q hq
end

/-! ## Claim theorems -/

/-- Claim C1: a `getOrCreateCacheFile` call with the pass-through format
png resolves immediately to the source path itself with success, leaves
the filesystem unchanged and performs no filesystem operation at all —
in particular no read, existence check or write under the cache root. -/
theorem passThrough_bypasses_cache (env : Env) (fs : FS)
    (cacheSegs fileSegs relSegs : List String) :
    getOrCreateCacheFile env fs cacheSegs fileSegs relSegs "png"
      = (.resolved true fileSegs, fs, []) := by
  unfold getOrCreateCacheFile
  simp

/-- Claim C10: the pass-through branch performs no check that the source
exists or is readable: even on an absent source file the call resolves
with success and the source path, and is not the not-found result. -/
theorem passThrough_ignores_missing_source (env : Env) (fs : FS)
    (cacheSegs fileSegs relSegs : List String) (_h : fs.lookup fileSegs = .absent) :
    getOrCreateCacheFile env fs cacheSegs fileSegs relSegs "png"
        = (.resolved true fileSegs, fs, [])
      ∧ (getOrCreateCacheFile env fs cacheSegs fileSegs relSegs "png").1
        ≠ .resolved false [] := by
  constructor
  · unfold getOrCreateCacheFile
    simp
  · unfold getOrCreateCacheFile
    simp

theorem passThrough_ignores_missing_source_witness :
    getOrCreateCacheFile envOk [] ["cache", "Logos"] ["images", "Logos", "a.png"] ["a.png"] "png"
      = (.resolved true ["images", "Logos", "a.png"], [], []) :=
  (passThrough_ignores_missing_source envOk [] ["cache", "Logos"] ["images", "Logos", "a.png"]
    ["a.png"] rfl).1

/-- Claim C2: if a first non-pass-through call succeeds, a second call
with the same source and format finds the destination cache file
readable and resolves to the very same path with the same final state,
performing only the cache access check — no re-encode and no write. -/
theorem getOrCreate_idempotent (env : Env) (fs : FS) (cacheSegs fileSegs relSegs : List String)
    (t : String) (ht : t ≠ "png") (p : List String) (fs' : FS) (tr : List FsOp)
    (h : getOrCreateCacheFile env fs cacheSegs fileSegs relSegs t = (.resolved true p, fs', tr)) :
    getOrCreateCacheFile env fs' cacheSegs fileSegs relSegs t
      = (.resolved true p, fs', [.accessCheck (cacheDestSegs cacheSegs relSegs t)]) := by
  obtain ⟨hq, hr⟩ := getOrCreate_ok_dest env fs cacheSegs fileSegs relSegs t ht p fs' tr h
  subst hq
  have hr' : (fs'.lookup (cacheDestSegs cacheSegs relSegs t)).isReadable = true := hr
  unfold getOrCreateCacheFile
  simp [ht, hr']

theorem getOrCreate_idempotent_witness :
    getOrCreateCacheFile envOk
        [(["cache", "Logos", "a.jpg"], .readable 105), (["images", "Logos", "a.png"], .readable 5)]
        ["cache", "Logos"] ["images", "Logos", "a.png"] ["a.png"] "jpg"
      = (.resolved true ["cache", "Logos", "a.jpg"],
         [(["cache", "Logos", "a.jpg"], .readable 105),
          (["images", "Logos", "a.png"], .readable 5)],
         [.accessCheck ["cache", "Logos", "a.jpg"]]) :=
  getOrCreate_idempotent envOk [(["images", "Logos", "a.png"], .readable 5)]
    ["cache", "Logos"] ["images", "Logos", "a.png"] ["a.png"] "jpg" (by decide)
    ["cache", "Logos", "a.jpg"]
    [(["cache", "Logos", "a.jpg"], .readable 105), (["images", "Logos", "a.png"], .readable 5)]
    [.accessCheck ["cache", "Logos", "a.jpg"], .accessCheck ["images", "Logos", "a.png"],
     .mkdirRec ["cache", "Logos"], .readFile ["images", "Logos", "a.png"],
     .writeFile ["cache", "Logos", "a.jpg"]]
    (by decide)

/-- Claim C3 counterexample: a GET whose resolved path escapes the
collection source root `images/Logos` (but stays inside the global
`images` folder) is not rejected at all: the handler serves the file
instead of responding 404 or 400. -/
theorem containment_crossCollection_counterexample :
    handleGet envOk [] ["images"] ["cache", "Logos"] ["images", "Logos"]
        ".." "Screenshots" "x.png" none
      = (.responded (.sendFile ["images", "Screenshots", "x.png"]), [], [])
    ∧ resolveSegs (["images", "Logos"] ++ ["..", "Screenshots", "x.png"])
        = ["images", "Screenshots", "x.png"]
    ∧ ¬ (["images", "Logos"] <+: ["images", "Screenshots", "x.png"]) := by
  refine ⟨by decide, by decide, by decide⟩

/-- Claim C3 (amended): when the resolved absolute path fails the
containment check — which the code performs against the global images
folder, not the collection root — the handler does no filesystem or
encode work, but it also sends no response at all: there is no else
branch, so no 404/400 is produced. -/
theorem containment_reject_no_response (env : Env) (fs : FS)
    (imagesSegs cacheSegs rootSegs : List String) (f1 f2 filename : String)
    (qtype : Option String)
    (h : isSubFile imagesSegs (resolveSegs (rootSegs ++ [f1, f2, filename])) = false) :
    handleGet env fs imagesSegs cacheSegs rootSegs f1 f2 filename qtype
      = (.noResponse, fs, []) := by
  unfold handleGet
  simp [h]

theorem containment_reject_no_response_witness :
    handleGet envOk [] ["images"] ["cache", "Logos"] ["images", "Logos"] ".." ".." "passwd" none
      = (.noResponse, [], []) :=
  containment_reject_no_response envOk [] ["images"] ["cache", "Logos"] ["images", "Logos"]
    ".." ".." "passwd" none (by decide)

/-- Claim C4 counterexample: `..x` is a real child name, so `a/..x` is a
proper descendant of `a`, yet `isSubFile` returns false because the
relative string `..x` starts with the two characters `..`. -/
theorem isSubFile_dotdot_name_counterexample :
    isSubFile ["a"] ["a", "..x"] = false
      ∧ ["a"] <+: ["a", "..x"] ∧ (["a"] : List String) ≠ ["a", "..x"] := by
  refine ⟨by decide, by decide, by decide⟩

/-- Claim C4 (amended): `isSubFile` returns false whenever the lexical
relative form of the candidate with respect to the root is empty, starts
with the characters `..`, or is absolute; a true result implies the
candidate is a proper segment-wise descendant of the root; the converse
implication fails (see the counterexample): a descendant whose first
uncommon segment begins with two dots is also rejected. The check is a
pure function of the two segment lists. -/
theorem isSubFile_lexical_spec (r p : List String) :
    ((pathRelative r p = "" ∨ strStartsWith (pathRelative r p) ".." = true
        ∨ strStartsWith (pathRelative r p) "/" = true) → isSubFile r p = false)
      ∧ (isSubFile r p = true → r <+: p ∧ r ≠ p) := by
  constructor
  · intro h
    unfold isSubFile
    rcases h with h | h | h <;> simp [h]
  · exact isSubFile_sub r p

theorem isSubFile_lexical_spec_witness :
    isSubFile ["a"] ["a"] = false
      ∧ (["a"] <+: ["a", "b"] ∧ (["a"] : List String) ≠ ["a", "b"]) :=
  ⟨(isSubFile_lexical_spec ["a"] ["a"]).1 (Or.inl (by decide)),
   (isSubFile_lexical_spec ["a"] ["a", "b"]).2 (by decide)⟩

/-- Claim C5: with a non-pass-through format, no readable cache file and
no readable source, `getOrCreateCacheFile` resolves to the not-found
result (success false, empty path) having performed only the two access
checks, and the GET handler maps that outcome to a 404 Not Found
response. -/
theorem notFound_maps_404 (env : Env) (fs : FS) (imagesSegs cacheSegs rootSegs : List String)
    (f1 f2 filename : String) (qtype : Option String) (t : String) (F R D : List String)
    (hF : F = resolveSegs (rootSegs ++ [f1, f2, filename])) (hR : R = relSegsOf rootSegs F)
    (hD : D = cacheDestSegs cacheSegs R t)
    (hq : parseOptionQuery qtype = .ok t) (ht : t ≠ "png")
    (hsub : isSubFile imagesSegs F = true)
    (hdest : (fs.lookup D).isReadable = false)
    (hsrc : (fs.lookup F).isReadable = false) :
    getOrCreateCacheFile env fs cacheSegs F R t
        = (.resolved false [], fs, [.accessCheck D, .accessCheck F])
      ∧ handleGet env fs imagesSegs cacheSegs rootSegs f1 f2 filename qtype
        = (.responded (.status 404 "Not Found"), fs, [.accessCheck D, .accessCheck F]) := by
  subst hF
  subst hR
  subst hD
  have part1 : getOrCreateCacheFile env fs cacheSegs
      (resolveSegs (rootSegs ++ [f1, f2, filename]))
      (relSegsOf rootSegs (resolveSegs (rootSegs ++ [f1, f2, filename]))) t
      = (.resolved false [], fs,
         [.accessCheck (cacheDestSegs cacheSegs
            (relSegsOf rootSegs (resolveSegs (rootSegs ++ [f1, f2, filename]))) t),
          .accessCheck (resolveSegs (rootSegs ++ [f1, f2, filename]))]) := by
    cases hl : fs.lookup (resolveSegs (rootSegs ++ [f1, f2, filename])) with
    | readable c =>
      rw [hl] at hsrc
      simp [FileState.isReadable] at hsrc
    | absent =>
      unfold getOrCreateCacheFile
      simp [ht, hdest, hl]
    | unreadable =>
      unfold getOrCreateCacheFile
      simp [ht, hdest, hl]
  refine ⟨part1, ?_⟩
  unfold handleGet
  simp [hsub, hq, part1]

theorem notFound_maps_404_witness :
    getOrCreateCacheFile envOk [] ["cache", "Logos"]
        ["images", "Logos", "a", "b", "missing.jpg"] ["a", "b", "missing.jpg"] "jpg"
        = (.resolved false [], [],
           [.accessCheck ["cache", "Logos", "a", "b", "missing.jpg"],
            .accessCheck ["images", "Logos", "a", "b", "missing.jpg"]])
      ∧ handleGet envOk [] ["images"] ["cache", "Logos"] ["images", "Logos"]
          "a" "b" "missing.jpg" (some "jpg")
        = (.responded (.status 404 "Not Found"), [],
           [.accessCheck ["cache", "Logos", "a", "b", "missing.jpg"],
            .accessCheck ["images", "Logos", "a", "b", "missing.jpg"]]) :=
  notFound_maps_404 envOk [] ["images"] ["cache", "Logos"] ["images", "Logos"]
    "a" "b" "missing.jpg" (some "jpg") "jpg"
    ["images", "Logos", "a", "b", "missing.jpg"] ["a", "b", "missing.jpg"]
    ["cache", "Logos", "a", "b", "missing.jpg"]
    (by decide) (by decide) (by decide) rfl (by decide) (by decide) (by decide) (by decide)

/-- Claim C6 counterexample: a failed write rejects the promise, yet a
readable file (the truncated leftover) remains at the cache path, and a
subsequent call serves that leftover as a cache hit — nothing resembling
write-to-temp-then-rename or cleanup-on-error exists. -/
theorem write_failure_leaves_file_counterexample :
    getOrCreateCacheFile envWriteFail [(["images", "Logos", "a.png"], .readable 5)]
        ["cache", "Logos"] ["images", "Logos", "a.png"] ["a.png"] "jpg"
      = (.rejected,
         [(["cache", "Logos", "a.jpg"], .readable 999),
          (["images", "Logos", "a.png"], .readable 5)],
         [.accessCheck ["cache", "Logos", "a.jpg"], .accessCheck ["images", "Logos", "a.png"],
          .mkdirRec ["cache", "Logos"], .readFile ["images", "Logos", "a.png"],
          .writeFile ["cache", "Logos", "a.jpg"]])
    ∧ (FS.lookup [(["cache", "Logos", "a.jpg"], .readable 999),
         (["images", "Logos", "a.png"], .readable 5)] ["cache", "Logos", "a.jpg"]).isReadable
        = true
    ∧ getOrCreateCacheFile envWriteFail
        [(["cache", "Logos", "a.jpg"], .readable 999), (["images", "Logos", "a.png"], .readable 5)]
        ["cache", "Logos"] ["images", "Logos", "a.png"] ["a.png"] "jpg"
      = (.resolved true ["cache", "Logos", "a.jpg"],
         [(["cache", "Logos", "a.jpg"], .readable 999),
          (["images", "Logos", "a.png"], .readable 5)],
         [.accessCheck ["cache", "Logos", "a.jpg"]]) := by
  refine ⟨by decide, by decide, by decide⟩

/-- Claim C6 (amended): an encode failure rejects the promise and leaves
the filesystem unchanged; a write failure also rejects the promise —
propagated to the caller — but the write goes directly to the final
cache path with no temporary file or cleanup, so whatever state the
failed write left at the cache path remains there. -/
theorem encode_or_write_failure_rejects (env : Env) (fs : FS)
    (cacheSegs fileSegs relSegs D : List String) (t : String) (c : Nat)
    (hD : D = cacheDestSegs cacheSegs relSegs t)
    (ht : t ≠ "png")
    (hdest : (fs.lookup D).isReadable = false)
    (hsrc : fs.lookup fileSegs = .readable c) :
    (env.encode c t = none →
       getOrCreateCacheFile env fs cacheSegs fileSegs relSegs t
         = (.rejected, fs,
            [.accessCheck D, .accessCheck fileSegs, .mkdirRec D.dropLast, .readFile fileSegs]))
      ∧ (∀ b, env.encode c t = some b → env.writeOk = false →
           getOrCreateCacheFile env fs cacheSegs fileSegs relSegs t
             = (.rejected, fs.insert D env.failLeftover,
                [.accessCheck D, .accessCheck fileSegs, .mkdirRec D.dropLast,
                 .readFile fileSegs, .writeFile D])) := by
  subst hD
  constructor
  · intro he
    unfold getOrCreateCacheFile
    simp [ht, hdest, hsrc, he]
  · intro b he hw
    unfold getOrCreateCacheFile
    simp [ht, hdest, hsrc, he, hw]

theorem encode_or_write_failure_rejects_witness :
    getOrCreateCacheFile envEncodeFail [(["images", "Logos", "a.png"], .readable 5)]
        ["cache", "Logos"] ["images", "Logos", "a.png"] ["a.png"] "jpg"
      = (.rejected, [(["images", "Logos", "a.png"], .readable 5)],
         [.accessCheck ["cache", "Logos", "a.jpg"], .accessCheck ["images", "Logos", "a.png"],
          .mkdirRec ["cache", "Logos"], .readFile ["images", "Logos", "a.png"]]) :=
  (encode_or_write_failure_rejects envEncodeFail [(["images", "Logos", "a.png"], .readable 5)]
    ["cache", "Logos"] ["images", "Logos", "a.png"] ["a.png"] ["cache", "Logos", "a.jpg"]
    "jpg" 5 (by decide) (by decide) (by decide) (by decide)).1 rfl

/-- Claim C7 counterexample: an empty `type` value is present and not in
the enumeration, yet it is silently defaulted to pass-through and the
request is served; a non-empty unknown value makes the handler throw,
and the route code sends no client-error response at all. -/
theorem invalid_type_counterexample :
    handleGet envOk [] ["images"] ["cache", "Logos"] ["images", "Logos"] "a" "b" "c.png"
        (some "")
      = (.responded (.sendFile ["images", "Logos", "a", "b", "c.png"]), [], [])
    ∧ validTypes.contains "" = false
    ∧ handleGet envOk [] ["images"] ["cache", "Logos"] ["images", "Logos"] "a" "b" "c.png"
        (some "webp")
      = (.threw "Invalid image type", [], []) := by
  refine ⟨by decide, by decide, by decide⟩

/-- Claim C7 (amended): a present, non-empty `type` value outside the
closed enumeration makes the handler throw the request error before any
filesystem or encode work, and it is never defaulted; but the route code
itself sends no response for this case (surfacing is left to the
framework), and a present empty-string value is treated exactly like an
absent one, silently defaulting to pass-through. -/
theorem invalid_type_throws (env : Env) (fs : FS) (imagesSegs cacheSegs rootSegs : List String)
    (f1 f2 filename : String) (t : String)
    (hsub : isSubFile imagesSegs (resolveSegs (rootSegs ++ [f1, f2, filename])) = true)
    (hne : t ≠ "") (hinv : validTypes.contains t = false) :
    handleGet env fs imagesSegs cacheSegs rootSegs f1 f2 filename (some t)
      = (.threw "Invalid image type", fs, [])
    ∧ handleGet env fs imagesSegs cacheSegs rootSegs f1 f2 filename (some "")
      = handleGet env fs imagesSegs cacheSegs rootSegs f1 f2 filename none := by
  constructor
  · unfold handleGet
    have ht2 : ¬ t ∈ validTypes := by simpa using hinv
    simp [hsub, parseOptionQuery, hne, ht2]
  · unfold handleGet
    simp [parseOptionQuery]

theorem invalid_type_throws_witness :
    handleGet envOk [] ["images"] ["cache", "Logos"] ["images", "Logos"] "a" "b" "c.png"
        (some "gif")
      = (.threw "Invalid image type", [], []) :=
  (invalid_type_throws envOk [] ["images"] ["cache", "Logos"] ["images", "Logos"]
    "a" "b" "c.png" "gif" (by decide) (by decide) (by decide)).1

/-- Claim C8: the DELETE route responds 401 without touching the
filesystem when the bearer token is missing or wrong; with a valid token
it computes the jpg cache path and responds 200 whether the cache file
is absent (no-op) or present (removed); and — the cache root and the
source root being mutually non-nested — it never changes any file under
the source root. -/
theorem deleteRoute_contract (fs : FS) (unlinkOk : Bool) (key : String)
    (imagesSegs cacheSegs rootSegs : List String) (auth : Option String)
    (f1 f2 filename : String) (D : List String)
    (hD : D = cacheDestSegs cacheSegs
        (relSegsOf rootSegs (resolveSegs (rootSegs ++ [f1, f2, filename]))) "jpg") :
    ((∀ h, auth = some h → h ≠ "Bearer " ++ key) →
       handleDelete fs unlinkOk key cacheSegs rootSegs auth f1 f2 filename
         = (.responded (.status 401 "Unauthorized"), fs, []))
    ∧ (auth = some ("Bearer " ++ key) → isSubFile cacheSegs D = true →
        fs.lookup D = .absent →
        handleDelete fs unlinkOk key cacheSegs rootSegs auth f1 f2 filename
          = (.responded (.status 200 "File deleted successfully"), fs, [.existsCheck D]))
    ∧ (auth = some ("Bearer " ++ key) → isSubFile cacheSegs D = true →
        fs.lookup D ≠ .absent → unlinkOk = true →
        handleDelete fs unlinkOk key cacheSegs rootSegs auth f1 f2 filename
          = (.responded (.status 200 "File deleted successfully"), fs.insert D .absent,
             [.existsCheck D, .unlink D]))
    ∧ (¬ (imagesSegs <+: cacheSegs) → ¬ (cacheSegs <+: imagesSegs) →
        ∀ p, imagesSegs <+: p →
          ((handleDelete fs unlinkOk key cacheSegs rootSegs auth f1 f2 filename).2.1).lookup p
            = fs.lookup p) := by
  subst hD
  refine ⟨?_, ?_, ?_, ?_⟩
  · intro hbad
    unfold handleDelete
    cases auth with
    | none => simp
    | some h => simp [hbad h rfl]
  · intro ha hin habs
    subst ha
    unfold handleDelete
    simp [hin, habs]
  · intro ha hin hne hul
    subst ha
    subst hul
    unfold handleDelete
    simp [hin, hne]
  · intro hic hci p hp
    unfold handleDelete
    simp only []
    split
    · rfl
    · split
      next hin =>
        have hsub2 := isSubFile_sub cacheSegs _ hin
        have hdp : cacheDestSegs cacheSegs
            (relSegsOf rootSegs (resolveSegs (rootSegs ++ [f1, f2, filename]))) "jpg" ≠ p := by
          intro hdp
          rw [hdp] at hsub2
          rcases sub_comparable p imagesSegs cacheSegs hp hsub2.1 with h | h
          · exact hic h
          · exact hci h
        split
        · rfl
        · split
          · simp only [FS.lookup_insert]
            rw [if_neg hdp]
          · rfl
      next hout => rfl

theorem deleteRoute_contract_witness :
    handleDelete [] true "secret" ["cache", "Logos"] ["images", "Logos"] none "a" "b" "c.png"
        = (.responded (.status 401 "Unauthorized"), [], [])
    ∧ handleDelete [] true "secret" ["cache", "Logos"] ["images", "Logos"]
        (some "Bearer secret") "a" "b" "c.png"
        = (.responded (.status 200 "File deleted successfully"), [],
           [.existsCheck ["cache", "Logos", "a", "b", "c.jpg"]])
    ∧ handleDelete [(["cache", "Logos", "a", "b", "c.jpg"], .readable 7)] true "secret"
        ["cache", "Logos"] ["images", "Logos"] (some "Bearer secret") "a" "b" "c.png"
        = (.responded (.status 200 "File deleted successfully"),
           FS.insert [(["cache", "Logos", "a", "b", "c.jpg"], .readable 7)]
             ["cache", "Logos", "a", "b", "c.jpg"] .absent,
           [.existsCheck ["cache", "Logos", "a", "b", "c.jpg"],
            .unlink ["cache", "Logos", "a", "b", "c.jpg"]])
    ∧ ((handleDelete [(["cache", "Logos", "a", "b", "c.jpg"], .readable 7),
          (["images", "Logos", "a", "b", "c.png"], .readable 5)] true "secret"
          ["cache", "Logos"] ["images", "Logos"] (some "Bearer secret") "a" "b" "c.png").2.1).lookup
        ["images", "Logos", "a", "b", "c.png"]
        = FS.lookup [(["cache", "Logos", "a", "b", "c.jpg"], .readable 7),
            (["images", "Logos", "a", "b", "c.png"], .readable 5)]
            ["images", "Logos", "a", "b", "c.png"] :=
  ⟨(deleteRoute_contract [] true "secret" ["images"] ["cache", "Logos"] ["images", "Logos"]
      none "a" "b" "c.png" ["cache", "Logos", "a", "b", "c.jpg"] (by decide)).1
      (fun h hh => Option.noConfusion hh),
   (deleteRoute_contract [] true "secret" ["images"] ["cache", "Logos"] ["images", "Logos"]
      (some "Bearer secret") "a" "b" "c.png" ["cache", "Logos", "a", "b", "c.jpg"]
      (by decide)).2.1 rfl (by decide) rfl,
   (deleteRoute_contract [(["cache", "Logos", "a", "b", "c.jpg"], .readable 7)] true "secret"
      ["images"] ["cache", "Logos"] ["images", "Logos"] (some "Bearer secret") "a" "b" "c.png"
      ["cache", "Logos", "a", "b", "c.jpg"] (by decide)).2.2.1 rfl (by decide) (by decide) rfl,
   (deleteRoute_contract [(["cache", "Logos", "a", "b", "c.jpg"], .readable 7),
        (["images", "Logos", "a", "b", "c.png"], .readable 5)] true "secret"
      ["images"] ["cache", "Logos"] ["images", "Logos"] (some "Bearer secret") "a" "b" "c.png"
      ["cache", "Logos", "a", "b", "c.jpg"] (by decide)).2.2.2 (by decide) (by decide)
      ["images", "Logos", "a", "b", "c.png"] (by decide)⟩

/-- Claim C9 counterexample: a source file that exists but is unreadable
makes its `getOrCreateCacheFile` call resolve not-found — not reject —
so the `.catch` never fires: the failure log is empty although the file
failed and got no cache entry. -/
theorem precache_notFound_unlogged_counterexample :
    precacheList envOk ["cache", "Logos"] ["images", "Logos"] ["images", "Logos"]
        (.cons (.file "a.png") .nil) [(["images", "Logos", "a.png"], .unreadable)]
      = ([], [(["images", "Logos", "a.png"], .unreadable)])
    ∧ walkList envOk ["cache", "Logos"] ["images", "Logos"] ["images", "Logos"]
        (.cons (.file "a.png") .nil) [(["images", "Logos", "a.png"], .unreadable)]
      = ([(["images", "Logos", "a.png"], GetRes.resolved false [])],
         [(["images", "Logos", "a.png"], .unreadable)]) := by
  refine ⟨by decide, by decide⟩

/-- Claim C9 (amended): after the walk, the failure list contains
exactly — and in walk order — the source paths whose conversion promise
rejected (processing errors); a not-found outcome is not recorded; every
regular file of the tree is visited, so the walk never aborts early; and
every file whose call succeeded has its resolved cache path readable in
the final state. -/
theorem precache_log_spec (l : EntryList) (env : Env) (cs rs folder : List String) (fs : FS) :
    (precacheList env cs rs folder l fs).1
        = ((walkList env cs rs folder l fs).1.filter
            (fun pr => pr.2 == GetRes.rejected)).map Prod.fst
      ∧ (walkList env cs rs folder l fs).1.map Prod.fst = filesOfList folder l
      ∧ (∀ pr ∈ (walkList env cs rs folder l fs).1, ∀ q, pr.2 = GetRes.resolved true q →
            ((walkList env cs rs folder l fs).2).readableAt q = true) := by
  obtain ⟨h1, h2, h3, h4, h5⟩ := walkList_spec l env cs rs folder fs
  exact ⟨h1, h3, h5⟩

theorem precache_log_spec_witness :
    ((walkList envOk ["cache", "Logos"] ["images", "Logos"] ["images", "Logos"]
        (.cons (.file "a.png") .nil)
        [(["images", "Logos", "a.png"], .readable 5)]).2).readableAt ["cache", "Logos", "a.jpg"]
      = true :=
  (precache_log_spec (.cons (.file "a.png") .nil) envOk ["cache", "Logos"] ["images", "Logos"]
      ["images", "Logos"] [(["images", "Logos", "a.png"], .readable 5)]).2.2
    (["images", "Logos", "a.png"], .resolved true ["cache", "Logos", "a.jpg"]) (by decide)
    ["cache", "Logos", "a.jpg"] rfl

end ImageMicroservice
